import Mathlib

/-!
# Verification of the earnings-simulation and ledger consistency engine

Shallow embedding of the core of the `chuangzuo` repository:

* `useRunOrderEngine.ts` — the deterministic daily plan builder (`buildPlan`)
  and the order emitter (`makeOneOrder`);
* `store/appStore.ts` — the wallet/ledger state machine
  (`manualPayout`, `requestWithdrawal`, `requestCryptoWithdrawal`, `exchange`);
* `RunControlPanel.tsx` — the invest operation (`handleStart`), the stop
  operation (`doStop`) and the derived payout-status metrics
  (`getYesterdayNumbers`, `getYesterdayPayoutStatus`);
* `Run.tsx` — order emission posting an EARN ledger entry (`emitEarn`).

Modelling conventions:
* JavaScript numbers carrying monetary minor-unit amounts are embedded as `ℤ`;
  crypto holdings and prices (floating point in the source) as `ℚ`.
* `Math.round` is embedded as `jsRound` (round half toward +infinity).
* 32-bit JavaScript bit operations (`^`, `|`, `>>>`, `Math.imul`) are embedded
  on `ℕ` as the corresponding bit patterns modulo `2^32`.
* `createdAt` ISO timestamps are abstracted to an integer local-calendar day
  index (`day`); `isSameDay` becomes equality of day indices.  Ledger `id`,
  `refId`, `meta` and wallet `updatedAt` fields carry no verified behaviour
  and are omitted.
-/

namespace Chuangzuo

/-- JavaScript `Math.round`: round half away from zero toward +infinity,
i.e. `⌊q + 1/2⌋`. -/
def jsRound (q : ℚ) : ℤ := ⌊q + 1/2⌋

/-- Reduce a natural number to a 32-bit pattern (JavaScript `ToUint32`). -/
def u32 (n : ℕ) : ℕ := n % 4294967296

/-- JavaScript `Math.imul`: 32-bit multiplication on bit patterns. -/
def imul32 (a b : ℕ) : ℕ := u32 (a * b)

/-- `seededRand01` from `useRunOrderEngine.ts`, bit-pattern part:
```js
let t = seed + 0x6D2B79F5
t = Math.imul(t ^ (t >>> 15), t | 1)
t ^= t + Math.imul(t ^ (t >>> 7), t | 61)
return ((t ^ (t >>> 14)) >>> 0) / 4294967296
```
All intermediate values are the 32-bit patterns of the JavaScript int32
values; signed/unsigned distinctions are immaterial for `^`, `|`, `>>>`,
`Math.imul` and for the one number addition (exact in float64, reduced
mod `2^32` by the subsequent `ToInt32`). -/
def seededRandBits (seed : ℕ) : ℕ :=
  let t0 := u32 (seed + 0x6D2B79F5)
  let t1 := imul32 (Nat.xor t0 (t0 >>> 15)) (t0 ||| 1)
  let t2 := Nat.xor t1 (u32 (t1 + imul32 (Nat.xor t1 (t1 >>> 7)) (t1 ||| 61)))
  Nat.xor t2 (t2 >>> 14)

/-- `seededRand01`: the stable pseudo-random value in `[0, 1)` derived from an
integer seed (the final division by `4294967296` is exact in float64 since the
numerator is an integer below `2^32`). -/
def seededRand01 (seed : ℕ) : ℚ := (seededRandBits seed : ℚ) / 4294967296

/-- `DailyPlan`: the ephemeral per-day plan kept in `planRef` by
`useRunOrderEngine.ts`. -/
structure DailyPlan where
  day : ℕ
  ordersPlanned : ℕ
  ordersDone : ℕ
  targetSumMinor : ℤ
  producedMinor : ℤ
deriving DecidableEq, Repr

/-- `buildPlan` from `useRunOrderEngine.ts` (lines 104–136), as a function of
the invested amount in minor units and the integer day key `todayKey()`:
```js
const invMain = Math.max(0, Math.floor(investMinor)) / 100
if (invMain <= 0) { plan = {day, 0, 0, 0, 0}; return }
const lowTier = invMain < 10000
const baseMonthly = lowTier ? 0.30 : 0.60
const capMonthly = lowTier ? 0.40 : 0.80
const daySeed = parseInt(day, 10) ^ Math.floor(invMain * 100)
const jitter = 0.9 + seededRand01(daySeed) * 0.2
const monthlyForToday = Math.min(capMonthly, baseMonthly * jitter)
const dailyTargetMain = (invMain * monthlyForToday) / 30
const targetSumMinor = Math.max(0, Math.round(dailyTargetMain * 100))
const ordersPlanned = 50 + Math.floor(seededRand01(daySeed + 77) * 51)
```
`Math.floor(investMinor)` is the identity on the integer embedding. -/
def buildPlan (investMinor : ℤ) (day : ℕ) : DailyPlan :=
  let invMain : ℚ := ((max 0 investMinor : ℤ) : ℚ) / 100
  if invMain ≤ 0 then
    { day := day, ordersPlanned := 0, ordersDone := 0,
      targetSumMinor := 0, producedMinor := 0 }
  else
    let lowTier := invMain < 10000
    let baseMonthly : ℚ := if lowTier then 30/100 else 60/100
    let capMonthly : ℚ := if lowTier then 40/100 else 80/100
    let daySeed : ℕ := Nat.xor (u32 day) (u32 (⌊invMain * 100⌋).toNat)
    let jitter : ℚ := 9/10 + seededRand01 daySeed * (2/10)
    let monthlyForToday : ℚ := min capMonthly (baseMonthly * jitter)
    let dailyTargetMain : ℚ := invMain * monthlyForToday / 30
    let targetSumMinor : ℤ := max 0 (jsRound (dailyTargetMain * 100))
    let ordersPlanned : ℕ := 50 + (⌊seededRand01 (daySeed + 77) * 51⌋).toNat
    { day := day, ordersPlanned := ordersPlanned, ordersDone := 0,
      targetSumMinor := targetSumMinor, producedMinor := 0 }

/-- The day seed used by `buildPlan` for a given invested amount (minor units)
and day key: `parseInt(day, 10) ^ Math.floor(invMain * 100)`. -/
def daySeedOf (investMinor : ℤ) (day : ℕ) : ℕ :=
  Nat.xor (u32 day) (u32 (⌊(((max 0 investMinor : ℤ) : ℚ) / 100) * 100⌋).toNat)

/-- `makeOneOrder` from `useRunOrderEngine.ts` (lines 153–189), acting on a
plan for the current day.  `r` is the `Math.random()` draw in `[0, 1)` used
for the per-order noise.  Returns the updated plan and the emitted profit in
minor units (`none` when no order is emitted; the order's display platform and
symbol are further non-seeded draws that carry no monetary state):
```js
if (!plan || plan.ordersPlanned === 0) return
const remainingOrders = plan.ordersPlanned - plan.ordersDone
if (remainingOrders <= 0) return
const remainingMinor = Math.max(0, plan.targetSumMinor - plan.producedMinor)
const expected = remainingOrders > 0 ? remainingMinor / remainingOrders : 0
let sample = Math.round(expected * (0.7 + r * 0.6))
const minCents = 1
const maxAllowed = Math.max(minCents, remainingMinor - (remainingOrders - 1) * minCents)
if (sample < minCents) sample = minCents
if (sample > maxAllowed) sample = maxAllowed
plan.ordersDone += 1; plan.producedMinor += sample
``` -/
def makeOneOrder (r : ℚ) (plan : DailyPlan) : DailyPlan × Option ℤ :=
  if plan.ordersPlanned = 0 then (plan, none)
  else
    let remainingOrders : ℤ := (plan.ordersPlanned : ℤ) - (plan.ordersDone : ℤ)
    if remainingOrders ≤ 0 then (plan, none)
    else
      let remainingMinor : ℤ := max 0 (plan.targetSumMinor - plan.producedMinor)
      let expected : ℚ := (remainingMinor : ℚ) / (remainingOrders : ℚ)
      let sample0 : ℤ := jsRound (expected * (7/10 + r * (6/10)))
      let minCents : ℤ := 1
      let maxAllowed : ℤ := max minCents (remainingMinor - (remainingOrders - 1) * minCents)
      let sample1 : ℤ := if sample0 < minCents then minCents else sample0
      let sample : ℤ := if sample1 > maxAllowed then maxAllowed else sample1
      ({ plan with ordersDone := plan.ordersDone + 1,
                   producedMinor := plan.producedMinor + sample }, some sample)

/-! ## Wallet / ledger state machine (`store/appStore.ts`, `RunControlPanel.tsx`, `Run.tsx`) -/

/-- `LedgerEntry.type` from `store/appStore.ts`. -/
inductive EntryType where
  | EARN | PAYOUT | COMMISSION | WITHDRAWAL_REQUEST | WITHDRAWAL_FEE
  | WITHDRAWAL_PAID | ADJUSTMENT
deriving DecidableEq, Repr

/-- `LedgerEntry`: immutable ledger record; `createdAt` abstracted to a
local-calendar day index. -/
structure LedgerEntry where
  type : EntryType
  amountMinor : ℤ
  currency : String
  day : ℤ
deriving DecidableEq, Repr

/-- `Wallet` from `store/appStore.ts` (`updatedAt` omitted, see header). -/
structure Wallet where
  availableMinor : ℤ
  pendingMinor : ℤ
  currency : String
deriving DecidableEq, Repr

/-- `AssetBalances`: USDT in integer minor units, BTC/ETH in native units
(floating point in the source, embedded as `ℚ`). -/
structure AssetBalances where
  usdtMinor : ℤ
  btc : ℚ
  eth : ℚ
deriving DecidableEq, Repr

/-- The store state relevant to the state machine, plus the `running` flag
kept by `RunControlPanel.tsx`. -/
structure AppState where
  wallet : Wallet
  assets : AssetBalances
  accruedMinor : ℤ
  ledger : List LedgerEntry
  running : Bool
deriving DecidableEq, Repr

/-- Structured result `{ok, message}` returned by the store actions. -/
structure OpResult where
  ok : Bool
  message : Option String
deriving DecidableEq, Repr

/-- The initial store state from `store/appStore.ts` (wallet `$120.00`
available, sample BTC/ETH holdings, `accruedMinor = 4235`, three seeded
ledger entries dated 1–3 days ago; `today` is day `0`). -/
def initialState : AppState :=
  { wallet := { availableMinor := 12000, pendingMinor := 0, currency := "USD" }
    assets := { usdtMinor := 12000, btc := 15423/1000000, eth := 4201/10000 }
    accruedMinor := 4235
    ledger :=
      [ { type := .EARN, amountMinor := 3500, currency := "USD", day := -1 }
      , { type := .PAYOUT, amountMinor := 10000, currency := "USD", day := -2 }
      , { type := .COMMISSION, amountMinor := 800, currency := "USD", day := -3 } ]
    running := false }

/-- `manualPayout` from `store/appStore.ts` (lines 186–201): no-op when
`accruedMinor <= 0`, otherwise moves the accrued amount into
`availableMinor`, zeroes it, and prepends one positive PAYOUT entry. -/
def manualPayout (today : ℤ) (s : AppState) : AppState :=
  if s.accruedMinor ≤ 0 then s
  else
    { s with
      wallet := { s.wallet with availableMinor := s.wallet.availableMinor + s.accruedMinor }
      accruedMinor := 0
      ledger :=
        { type := .PAYOUT, amountMinor := s.accruedMinor,
          currency := s.wallet.currency, day := today } :: s.ledger }

/-- `requestWithdrawal` from `store/appStore.ts` (lines 207–229):
```js
if (amountMinor <= 0) return { ok: false, message: 'Invalid amount.' }
if (amountMinor > wallet.availableMinor) return { ok: false, message: 'Insufficient balance.' }
const feeMinor = Math.round(amountMinor * 0.01)
wallet.availableMinor -= amountMinor + feeMinor
wallet.pendingMinor += amountMinor
ledger unshift WITHDRAWAL_REQUEST(-amountMinor), WITHDRAWAL_FEE(-feeMinor)
return { ok: true }
``` -/
def requestWithdrawal (today : ℤ) (amountMinor : ℤ) (s : AppState) : OpResult × AppState :=
  if amountMinor ≤ 0 then ({ ok := false, message := some "Invalid amount." }, s)
  else if amountMinor > s.wallet.availableMinor then
    ({ ok := false, message := some "Insufficient balance." }, s)
  else
    let feeMinor : ℤ := jsRound ((amountMinor : ℚ) * (1/100))
    ({ ok := true, message := none },
     { s with
       wallet := { s.wallet with
         availableMinor := s.wallet.availableMinor - amountMinor - feeMinor
         pendingMinor := s.wallet.pendingMinor + amountMinor }
       ledger :=
         { type := .WITHDRAWAL_REQUEST, amountMinor := -amountMinor,
           currency := s.wallet.currency, day := today } ::
         { type := .WITHDRAWAL_FEE, amountMinor := -feeMinor,
           currency := s.wallet.currency, day := today } :: s.ledger })

/-- BTC or ETH. -/
inductive CryptoSymbol where
  | BTC | ETH
deriving DecidableEq, Repr

/-- The held balance of a crypto symbol. -/
def heldCrypto (s : AppState) (symbol : CryptoSymbol) : ℚ :=
  match symbol with
  | .BTC => s.assets.btc
  | .ETH => s.assets.eth

/-- The `1e-12` tolerance used by the crypto balance checks. -/
def cryptoEps : ℚ := 1 / 1000000000000

/-- `requestCryptoWithdrawal` from `store/appStore.ts` (lines 230–260):
rejects non-positive amounts, rejects when `amount + 1% fee` exceeds the held
balance by more than `1e-12`, otherwise clamps the new holding at zero and
prepends one WITHDRAWAL_REQUEST entry with zero fiat amount (the `isFinite`
guard is vacuous on the `ℚ` embedding). -/
def requestCryptoWithdrawal (today : ℤ) (symbol : CryptoSymbol) (amountCrypto : ℚ)
    (s : AppState) : OpResult × AppState :=
  if amountCrypto ≤ 0 then ({ ok := false, message := some "Invalid amount." }, s)
  else
    let available := heldCrypto s symbol
    let fee := amountCrypto * (1/100)
    let total := amountCrypto + fee
    if total > available + cryptoEps then
      ({ ok := false, message := some "Insufficient crypto." }, s)
    else
      let assets :=
        match symbol with
        | .BTC => { s.assets with btc := max 0 (available - total) }
        | .ETH => { s.assets with eth := max 0 (available - total) }
      ({ ok := true, message := none },
       { s with
         assets := assets
         ledger :=
           { type := .WITHDRAWAL_REQUEST, amountMinor := 0,
             currency := "CRYPTO", day := today } :: s.ledger })

/-- Direction of `exchange`. -/
inductive ExDirection where
  | CRYPTO_TO_USDT | USDT_TO_CRYPTO
deriving DecidableEq, Repr

/-- `exchange` from `store/appStore.ts` (lines 274–332): converts between
BTC/ETH and USDT.  `amountCrypto` is used in the `CRYPTO_TO_USDT` direction
(`params.amountCrypto ?? 0`), `amountUsdtMinor` in the `USDT_TO_CRYPTO`
direction; non-positive prices and amounts are rejected (`!priceUsdtPerCrypto`
and the `isFinite` guards reduce to the sign checks on the `ℚ`/`ℤ`
embedding). -/
def exchange (today : ℤ) (direction : ExDirection) (symbol : CryptoSymbol)
    (priceUsdtPerCrypto : ℚ) (amountCrypto : ℚ) (amountUsdtMinor : ℤ)
    (s : AppState) : OpResult × AppState :=
  if priceUsdtPerCrypto ≤ 0 then ({ ok := false, message := some "Invalid price." }, s)
  else
    match direction with
    | .CRYPTO_TO_USDT =>
      if amountCrypto ≤ 0 then ({ ok := false, message := some "Invalid amount." }, s)
      else
        let availableCrypto := heldCrypto s symbol
        if amountCrypto > availableCrypto + cryptoEps then
          ({ ok := false, message := some "Insufficient crypto." }, s)
        else
          let usdtToAddMinor : ℤ := jsRound (amountCrypto * priceUsdtPerCrypto * 100)
          let assets :=
            match symbol with
            | .BTC =>
              { s.assets with
                btc := max 0 (availableCrypto - amountCrypto)
                usdtMinor := s.assets.usdtMinor + usdtToAddMinor }
            | .ETH =>
              { s.assets with
                eth := max 0 (availableCrypto - amountCrypto)
                usdtMinor := s.assets.usdtMinor + usdtToAddMinor }
          ({ ok := true, message := none },
           { s with
             assets := assets
             wallet := { s.wallet with availableMinor := s.wallet.availableMinor + usdtToAddMinor }
             ledger :=
               { type := .ADJUSTMENT, amountMinor := usdtToAddMinor,
                 currency := "USD", day := today } :: s.ledger })
    | .USDT_TO_CRYPTO =>
      if amountUsdtMinor ≤ 0 then ({ ok := false, message := some "Invalid amount." }, s)
      else if amountUsdtMinor > s.assets.usdtMinor ∨ amountUsdtMinor > s.wallet.availableMinor then
        ({ ok := false, message := some "Insufficient USDT." }, s)
      else
        let cryptoToAdd : ℚ := (amountUsdtMinor : ℚ) / 100 / priceUsdtPerCrypto
        let assets :=
          match symbol with
          | .BTC =>
            { s.assets with
              btc := s.assets.btc + cryptoToAdd
              usdtMinor := s.assets.usdtMinor - amountUsdtMinor }
          | .ETH =>
            { s.assets with
              eth := s.assets.eth + cryptoToAdd
              usdtMinor := s.assets.usdtMinor - amountUsdtMinor }
        ({ ok := true, message := none },
         { s with
           assets := assets
           wallet := { s.wallet with availableMinor := s.wallet.availableMinor - amountUsdtMinor }
           ledger :=
             { type := .ADJUSTMENT, amountMinor := -amountUsdtMinor,
               currency := "USD", day := today } :: s.ledger })

/-- `handleStart` from `RunControlPanel.tsx` (lines 293–337), after the
address gate, for an already-parsed invest amount in minor units
(`MIN_MINOR = 100 * 100`): rejects below-minimum and over-balance amounts,
otherwise moves the amount from `availableMinor` to `pendingMinor`, prepends
one negative ADJUSTMENT entry and sets the running flag. -/
def handleStart (today : ℤ) (investMinor : ℤ) (s : AppState) : OpResult × AppState :=
  if investMinor < 10000 then ({ ok := false, message := some "run.min100" }, s)
  else if investMinor > s.wallet.availableMinor then
    ({ ok := false, message := some "run.investExceed" }, s)
  else
    ({ ok := true, message := none },
     { s with
       wallet := { s.wallet with
         availableMinor := s.wallet.availableMinor - investMinor
         pendingMinor := s.wallet.pendingMinor + investMinor }
       ledger :=
         { type := .ADJUSTMENT, amountMinor := -investMinor,
           currency := s.wallet.currency, day := today } :: s.ledger
       running := true })

/-- `doStop` from `RunControlPanel.tsx` (lines 276–283): clears the running
flag only; wallet, assets and ledger are untouched. -/
def doStop (s : AppState) : AppState :=
  { s with running := false }

/-- Order emission from `Run.tsx` (`onOrder`, lines 58–89): prepends one EARN
entry with `amountMinor = Math.round(o.profitUsd * 100)`, which equals the
emitted sample in minor units; wallet and assets are not touched. -/
def emitEarn (today : ℤ) (profitMinor : ℤ) (s : AppState) : AppState :=
  { s with
    ledger :=
      { type := .EARN, amountMinor := profitMinor, currency := "USD", day := today } :: s.ledger }

/-- One state-machine operation (the claims' operation alphabet). -/
inductive Op where
  | start (investMinor : ℤ)
  | emitOrder (profitMinor : ℤ)
  | payout
  | withdraw (amountMinor : ℤ)
  | cryptoWithdraw (symbol : CryptoSymbol) (amountCrypto : ℚ)
  | exch (direction : ExDirection) (symbol : CryptoSymbol)
      (priceUsdtPerCrypto : ℚ) (amountCrypto : ℚ) (amountUsdtMinor : ℤ)
  | stop
deriving DecidableEq, Repr

/-- Apply one operation, keeping the post-state whether or not the operation
succeeded (failed operations return the state unchanged). -/
def applyOp (today : ℤ) (op : Op) (s : AppState) : AppState :=
  match op with
  | .start investMinor => (handleStart today investMinor s).2
  | .emitOrder profitMinor => emitEarn today profitMinor s
  | .payout => manualPayout today s
  | .withdraw amountMinor => (requestWithdrawal today amountMinor s).2
  | .cryptoWithdraw symbol amountCrypto => (requestCryptoWithdrawal today symbol amountCrypto s).2
  | .exch direction symbol price amountCrypto amountUsdtMinor =>
      (exchange today direction symbol price amountCrypto amountUsdtMinor s).2
  | .stop => doStop s

/-- Apply a finite sequence of operations in order. -/
def runOps (today : ℤ) (ops : List Op) (s : AppState) : AppState :=
  ops.foldl (fun st op => applyOp today op st) s

/-! ## Derived metrics (`WalletKPIGroup.tsx` / `RunControlPanel.tsx`) -/

/-- Payout status of yesterday's earnings. -/
inductive PayoutStatus where
  | SENT | PARTIAL | PENDING
deriving DecidableEq, Repr

/-- `getYesterdayNumbers` from `WalletKPIGroup.tsx` (lines 83–92, identical
copy in `RunControlPanel.tsx`): gross = sum of EARN and COMMISSION entries
dated yesterday, `fee = Math.round(gross * 0.2)`,
`net = Math.max(0, gross - fee)`.  Returns `(gross, fee, net)`. -/
def getYesterdayNumbers (today : ℤ) (ledger : List LedgerEntry) : ℤ × ℤ × ℤ :=
  let grossMinor : ℤ :=
    (ledger.filter fun e =>
      (e.type == EntryType.EARN || e.type == EntryType.COMMISSION) && e.day == today - 1).foldl
      (fun sum e => sum + e.amountMinor) 0
  let feeMinor : ℤ := jsRound ((grossMinor : ℚ) * (2/10))
  let netMinor : ℤ := max 0 (grossMinor - feeMinor)
  (grossMinor, feeMinor, netMinor)

/-- The cumulative amount paid today as computed inside
`getYesterdayPayoutStatus`: the sum of `Math.max(0, e.amountMinor)` over
today's PAYOUT entries. -/
def paidMinorToday (today : ℤ) (ledger : List LedgerEntry) : ℤ :=
  (ledger.filter fun e => e.type == EntryType.PAYOUT && e.day == today).foldl
    (fun sum e => sum + max 0 e.amountMinor) 0

/-- `getYesterdayPayoutStatus` from `WalletKPIGroup.tsx` (lines 102–114,
identical copy in `RunControlPanel.tsx`):
```js
if (paidMinorToday >= yesterdayNetMinor && yesterdayNetMinor > 0) return SENT
if (paidMinorToday > 0 && paidMinorToday < yesterdayNetMinor) return PARTIAL
return PENDING
``` -/
def getYesterdayPayoutStatus (today : ℤ) (ledger : List LedgerEntry)
    (yesterdayNetMinor : ℤ) : PayoutStatus × ℤ :=
  let paid := paidMinorToday today ledger
  if paid ≥ yesterdayNetMinor ∧ yesterdayNetMinor > 0 then (.SENT, paid)
  else if paid > 0 ∧ paid < yesterdayNetMinor then (.PARTIAL, paid)
  else (.PENDING, paid)

/-! ## Helper lemmas -/

/-- `Math.round` of a non-negative value is non-negative. -/
theorem jsRound_nonneg {q : ℚ} (h : 0 ≤ q) : 0 ≤ jsRound q := by
  unfold jsRound
  have : (0:ℚ) ≤ q + 1/2 := by linarith
  exact_mod_cast Int.floor_nonneg.mpr this

/-- Xor of two 32-bit patterns is a 32-bit pattern. -/
theorem xor_u32_lt {a b : ℕ} (ha : a < 4294967296) (hb : b < 4294967296) :
    Nat.xor a b < 4294967296 := by
  have h32 : (4294967296:ℕ) = 2^32 := by norm_num
  rw [h32] at ha hb ⊢
  exact Nat.xor_lt_two_pow ha hb

/-- Logical right shift does not increase a 32-bit pattern. -/
theorem shiftR_lt {a : ℕ} (k : ℕ) (ha : a < 4294967296) : a >>> k < 4294967296 :=
  lt_of_le_of_lt (by rw [Nat.shiftRight_eq_div_pow]; exact Nat.div_le_self _ _) ha

/-- `u32` always yields a 32-bit pattern. -/
theorem u32_lt (n : ℕ) : u32 n < 4294967296 :=
  Nat.mod_lt _ (by norm_num)

/-- The PRNG bit pattern is below `2^32`. -/
theorem seededRandBits_lt (seed : ℕ) : seededRandBits seed < 4294967296 := by
  unfold seededRandBits imul32
  dsimp only
  apply xor_u32_lt
  · exact xor_u32_lt (u32_lt _) (u32_lt _)
  · exact shiftR_lt _ (xor_u32_lt (u32_lt _) (u32_lt _))

/-- `seededRand01` is non-negative. -/
theorem seededRand01_nonneg (seed : ℕ) : 0 ≤ seededRand01 seed := by
  unfold seededRand01
  positivity

/-- `seededRand01` is strictly below one. -/
theorem seededRand01_lt_one (seed : ℕ) : seededRand01 seed < 1 := by
  unfold seededRand01
  rw [div_lt_one (by norm_num)]
  exact_mod_cast seededRandBits_lt seed

/-- For a positive invested amount, `buildPlan` takes the simulation branch
and its fields are exactly the tier/jitter formulas of the source. -/
theorem buildPlan_pos_eq (inv : ℤ) (day : ℕ) (h : 0 < inv) :
    buildPlan inv day =
      { day := day
        ordersPlanned := 50 + (⌊seededRand01 (daySeedOf inv day + 77) * 51⌋).toNat
        ordersDone := 0
        targetSumMinor :=
          max 0 (jsRound ((((inv:ℚ))/100)
            * min (if (((inv:ℚ))/100) < 10000 then (40:ℚ)/100 else 80/100)
                  ((if (((inv:ℚ))/100) < 10000 then (30:ℚ)/100 else 60/100)
                    * (9/10 + seededRand01 (daySeedOf inv day) * (2/10)))
            / 30 * 100))
        producedMinor := 0 } := by
  have hmax : max 0 inv = inv := max_eq_right h.le
  have hpos : ¬(((inv:ℚ))/100 ≤ 0) := by
    rw [not_le]
    positivity
  unfold buildPlan daySeedOf
  rw [hmax, if_neg hpos]

/-- Whenever the plan still has capacity, `makeOneOrder` emits at least one
minor unit (the per-order floor wins over the remaining-target ceiling). -/
theorem makeOneOrder_min_one (r : ℚ) (p : DailyPlan)
    (hcap : p.ordersDone < p.ordersPlanned) :
    p.producedMinor + 1 ≤ (makeOneOrder r p).1.producedMinor ∧
    (makeOneOrder r p).1.ordersDone = p.ordersDone + 1 := by
  have hne : p.ordersPlanned ≠ 0 := by omega
  have hro : ¬((p.ordersPlanned : ℤ) - (p.ordersDone : ℤ) ≤ 0) := by
    push_neg
    omega
  unfold makeOneOrder
  rw [if_neg hne, if_neg hro]
  refine ⟨?_, rfl⟩
  dsimp only
  have hm : (1:ℤ) ≤ max 1 (max 0 (p.targetSumMinor - p.producedMinor)
      - ((p.ordersPlanned : ℤ) - (p.ordersDone : ℤ) - 1) * 1) := le_max_left _ _
  split_ifs with h1 h2 h3 <;> omega

/-! ## Claims -/

/-- C1 (counterexample): withdrawing the full available balance of the
initial store state (`12000` minor units) has `amount + fee = 12120 >
availableMinor = 12000`, so the claim requires a structured
`InsufficientBalance` failure with the wallet unchanged; the code instead
returns `ok = true` and drives `availableMinor` to `-120`. -/
theorem requestWithdrawal_fee_overdraft_cex :
    0 < (12000:ℤ) ∧
    initialState.wallet.availableMinor = 12000 ∧
    12000 + jsRound ((12000:ℚ) * (1/100)) > initialState.wallet.availableMinor ∧
    (requestWithdrawal 0 12000 initialState).1.ok = true ∧
    (requestWithdrawal 0 12000 initialState).2.wallet.availableMinor = -120 := by
  refine ⟨by norm_num, rfl, ?_, ?_, ?_⟩
  · norm_num [initialState, jsRound]
  · norm_num [requestWithdrawal, initialState]
  · norm_num [requestWithdrawal, initialState, jsRound]

/-- C1 (amended): `requestWithdrawal(amountMinor)` rejects `amountMinor ≤ 0`
with `{ok: false, "Invalid amount."}` before any balance check and
`amountMinor > availableMinor` with `{ok: false, "Insufficient balance."}`
(the 1% fee is *not* included in the balance check, and non-finite inputs
are not screened), leaving the state unchanged in both cases; otherwise it
succeeds, deducts `amountMinor + round(amountMinor × 1%)` from
`availableMinor` (possibly driving it negative by up to the fee), adds
`amountMinor` to `pendingMinor`, leaves assets unchanged, and prepends
exactly one WITHDRAWAL_REQUEST entry with amount `-amountMinor` and one
WITHDRAWAL_FEE entry with amount `-fee`. -/
theorem requestWithdrawal_characterization (today amountMinor : ℤ) (s : AppState) :
    (amountMinor ≤ 0 →
      requestWithdrawal today amountMinor s
        = ({ ok := false, message := some "Invalid amount." }, s)) ∧
    (0 < amountMinor → s.wallet.availableMinor < amountMinor →
      requestWithdrawal today amountMinor s
        = ({ ok := false, message := some "Insufficient balance." }, s)) ∧
    (0 < amountMinor → amountMinor ≤ s.wallet.availableMinor →
      (requestWithdrawal today amountMinor s).1 = { ok := true, message := none } ∧
      (requestWithdrawal today amountMinor s).2.wallet.availableMinor
        = s.wallet.availableMinor - amountMinor - jsRound ((amountMinor : ℚ) * (1/100)) ∧
      (requestWithdrawal today amountMinor s).2.wallet.pendingMinor
        = s.wallet.pendingMinor + amountMinor ∧
      (requestWithdrawal today amountMinor s).2.assets = s.assets ∧
      (requestWithdrawal today amountMinor s).2.accruedMinor = s.accruedMinor ∧
      (requestWithdrawal today amountMinor s).2.ledger
        = { type := .WITHDRAWAL_REQUEST, amountMinor := -amountMinor,
            currency := s.wallet.currency, day := today } ::
          { type := .WITHDRAWAL_FEE,
            amountMinor := -jsRound ((amountMinor : ℚ) * (1/100)),
            currency := s.wallet.currency, day := today } :: s.ledger) := by
  refine ⟨fun h => ?_, fun h1 h2 => ?_, fun h1 h2 => ?_⟩
  · simp [requestWithdrawal, h]
  · simp [requestWithdrawal, not_le.mpr h1, h2]
  · simp [requestWithdrawal, not_le.mpr h1, not_lt.mpr h2]

/-- C1 (witness): the amended success case applied at the concrete input
`amountMinor = 500` on the initial state. -/
theorem requestWithdrawal_characterization_witness :
    (requestWithdrawal 0 500 initialState).1 = { ok := true, message := none } :=
  ((requestWithdrawal_characterization 0 500 initialState).2.2
    (by norm_num) (by norm_num [initialState])).1

/-- C5: the invest operation succeeds iff the amount is at least 10000 minor
units ($100) and at most `availableMinor`; on success it moves the amount
from `availableMinor` to `pendingMinor` (conservation:
`available_before = available_after + pending_delta`) and prepends exactly
one ADJUSTMENT entry of `-amount`; on failure (below minimum ⇒ `run.min100`,
over balance ⇒ `run.investExceed`) nothing changes.  Closed conjuncts check
the $99.99 / $100 scenario on the initial state. -/
theorem handleStart_characterization (today investMinor : ℤ) (s : AppState) :
    ((handleStart today investMinor s).1.ok = true ↔
      10000 ≤ investMinor ∧ investMinor ≤ s.wallet.availableMinor) ∧
    (investMinor < 10000 →
      handleStart today investMinor s = ({ ok := false, message := some "run.min100" }, s)) ∧
    (10000 ≤ investMinor → s.wallet.availableMinor < investMinor →
      handleStart today investMinor s = ({ ok := false, message := some "run.investExceed" }, s)) ∧
    (10000 ≤ investMinor → investMinor ≤ s.wallet.availableMinor →
      (handleStart today investMinor s).2.wallet.availableMinor
        = s.wallet.availableMinor - investMinor ∧
      (handleStart today investMinor s).2.wallet.pendingMinor
        = s.wallet.pendingMinor + investMinor ∧
      s.wallet.availableMinor
        = (handleStart today investMinor s).2.wallet.availableMinor
          + ((handleStart today investMinor s).2.wallet.pendingMinor - s.wallet.pendingMinor) ∧
      (handleStart today investMinor s).2.assets = s.assets ∧
      (handleStart today investMinor s).2.ledger
        = { type := .ADJUSTMENT, amountMinor := -investMinor,
            currency := s.wallet.currency, day := today } :: s.ledger) ∧
    (handleStart 0 9999 initialState = ({ ok := false, message := some "run.min100" }, initialState)) ∧
    ((handleStart 0 10000 initialState).1.ok = true) := by
  refine ⟨?_, fun h => ?_, fun h1 h2 => ?_, fun h1 h2 => ?_, ?_, ?_⟩
  · unfold handleStart
    split_ifs with hmin hbal
    · simp only [Bool.false_eq_true, false_iff]
      omega
    · simp only [Bool.false_eq_true, false_iff]
      omega
    · exact ⟨fun _ => ⟨not_lt.mp hmin, not_lt.mp hbal⟩, fun _ => rfl⟩
  · simp [handleStart, h]
  · simp [handleStart, not_lt.mpr h1, h2]
  · simp [handleStart, not_lt.mpr h1, not_lt.mpr h2]
  · norm_num [handleStart, initialState]
  · norm_num [handleStart, initialState]

/-- C5 (witness): investing exactly $100 on the initial state succeeds with
the funds moved from available to pending. -/
theorem handleStart_characterization_witness :
    (handleStart 0 10000 initialState).2.wallet.availableMinor
      = initialState.wallet.availableMinor - 10000 :=
  ((handleStart_characterization 0 10000 initialState).2.2.2.1
    (by norm_num) (by norm_num [initialState])).1

/-- C10: `pendingMinor` is monotonically non-decreasing: no operation ever
decreases it — invest and fiat withdrawal requests add to it, and manual
payout, crypto withdrawal, exchange in either direction, order emission and
stopping a run leave it unchanged (stopping only clears the running flag:
wallet, assets and ledger are untouched, so the invested pending capital is
never moved back). -/
theorem pendingMinor_monotone :
    (∀ today op s, s.wallet.pendingMinor ≤ (applyOp today op s).wallet.pendingMinor) ∧
    (∀ today ops s, s.wallet.pendingMinor ≤ (runOps today ops s).wallet.pendingMinor) ∧
    (∀ today s, (manualPayout today s).wallet.pendingMinor = s.wallet.pendingMinor) ∧
    (∀ today sym a s,
      (requestCryptoWithdrawal today sym a s).2.wallet.pendingMinor = s.wallet.pendingMinor) ∧
    (∀ today d sym pr a u s,
      (exchange today d sym pr a u s).2.wallet.pendingMinor = s.wallet.pendingMinor) ∧
    (∀ today p s, (emitEarn today p s).wallet.pendingMinor = s.wallet.pendingMinor) ∧
    (∀ s, (doStop s).wallet = s.wallet ∧ (doStop s).assets = s.assets ∧
      (doStop s).ledger = s.ledger ∧ (doStop s).running = false) := by
  have hpay : ∀ today s, (manualPayout today s).wallet.pendingMinor = s.wallet.pendingMinor := by
    intro today s
    unfold manualPayout
    split_ifs <;> rfl
  have hcw : ∀ today sym a s,
      (requestCryptoWithdrawal today sym a s).2.wallet.pendingMinor = s.wallet.pendingMinor := by
    intro today sym a s
    cases sym <;> (unfold requestCryptoWithdrawal; dsimp only; split_ifs <;> rfl)
  have hex : ∀ today d sym pr a u s,
      (exchange today d sym pr a u s).2.wallet.pendingMinor = s.wallet.pendingMinor := by
    intro today d sym pr a u s
    cases d <;> cases sym <;> (unfold exchange; dsimp only; split_ifs <;> rfl)
  have hop : ∀ today op s, s.wallet.pendingMinor ≤ (applyOp today op s).wallet.pendingMinor := by
    intro today op s
    cases op with
    | start investMinor =>
      simp only [applyOp]
      unfold handleStart
      split_ifs with hmin hbal
      · exact le_refl _
      · exact le_refl _
      · show s.wallet.pendingMinor ≤ s.wallet.pendingMinor + investMinor
        omega
    | emitOrder p => exact le_of_eq rfl
    | payout => exact le_of_eq (hpay today s).symm
    | withdraw a =>
      simp only [applyOp]
      unfold requestWithdrawal
      split_ifs with h1 h2
      · exact le_refl _
      · exact le_refl _
      · show s.wallet.pendingMinor ≤ s.wallet.pendingMinor + a
        omega
    | cryptoWithdraw sym a => exact le_of_eq (hcw today sym a s).symm
    | exch d sym pr a u => exact le_of_eq (hex today d sym pr a u s).symm
    | stop => exact le_refl _
  refine ⟨hop, ?_, hpay, hcw, hex, fun _ _ _ => rfl, fun s => ⟨rfl, rfl, rfl, rfl⟩⟩
  intro today ops
  induction ops with
  | nil => intro s; exact le_refl _
  | cons op ops ih =>
    intro s
    calc s.wallet.pendingMinor ≤ (applyOp today op s).wallet.pendingMinor := hop today op s
      _ ≤ (runOps today ops (applyOp today op s)).wallet.pendingMinor := ih _
      _ = (runOps today (op :: ops) s).wallet.pendingMinor := rfl

/-- The balances that every state-machine operation in fact keeps
non-negative: `pendingMinor` and all crypto balances. -/
def NonNegBalances (s : AppState) : Prop :=
  0 ≤ s.wallet.pendingMinor ∧ 0 ≤ s.assets.usdtMinor ∧ 0 ≤ s.assets.btc ∧ 0 ≤ s.assets.eth

/-- Every single operation preserves `NonNegBalances`. -/
theorem nonneg_balances_applyOp (today : ℤ) (op : Op) (s : AppState)
    (h : NonNegBalances s) : NonNegBalances (applyOp today op s) := by
  obtain ⟨hp, hu, hb, he⟩ := h
  cases op with
  | start investMinor =>
    simp only [applyOp]
    unfold handleStart
    split_ifs with hmin hbal
    · exact ⟨hp, hu, hb, he⟩
    · exact ⟨hp, hu, hb, he⟩
    · refine ⟨?_, hu, hb, he⟩
      show 0 ≤ s.wallet.pendingMinor + investMinor
      omega
  | emitOrder p => exact ⟨hp, hu, hb, he⟩
  | payout =>
    simp only [applyOp]
    unfold manualPayout
    split_ifs
    · exact ⟨hp, hu, hb, he⟩
    · exact ⟨hp, hu, hb, he⟩
  | withdraw a =>
    simp only [applyOp]
    unfold requestWithdrawal
    split_ifs with h1 h2
    · exact ⟨hp, hu, hb, he⟩
    · exact ⟨hp, hu, hb, he⟩
    · refine ⟨?_, hu, hb, he⟩
      show 0 ≤ s.wallet.pendingMinor + a
      omega
  | cryptoWithdraw sym a =>
    simp only [applyOp]
    cases sym <;> (unfold requestCryptoWithdrawal; dsimp only; split_ifs)
    · exact ⟨hp, hu, hb, he⟩
    · exact ⟨hp, hu, hb, he⟩
    · exact ⟨hp, hu, le_max_left 0 _, he⟩
    · exact ⟨hp, hu, hb, he⟩
    · exact ⟨hp, hu, hb, he⟩
    · exact ⟨hp, hu, hb, le_max_left 0 _⟩
  | exch d sym pr a u =>
    simp only [applyOp]
    cases d with
    | CRYPTO_TO_USDT =>
      cases sym <;> (unfold exchange; dsimp only; split_ifs with hpr ha hins)
      all_goals try exact ⟨hp, hu, hb, he⟩
      all_goals
        have hpr' : (0:ℚ) < pr := not_le.mp hpr
        have ha' : (0:ℚ) < a := not_le.mp ha
        have hadd : 0 ≤ jsRound (a * pr * 100) := by
          apply jsRound_nonneg
          positivity
      · exact ⟨hp, by dsimp only; omega, le_max_left 0 _, he⟩
      · exact ⟨hp, by dsimp only; omega, hb, le_max_left 0 _⟩
    | USDT_TO_CRYPTO =>
      cases sym <;> (unfold exchange; dsimp only; split_ifs with hpr hu0 hins)
      all_goals try exact ⟨hp, hu, hb, he⟩
      all_goals
        have hpr' : (0:ℚ) < pr := not_le.mp hpr
        have hu' : (0:ℤ) < u := not_le.mp hu0
        push_neg at hins
        have hca : (0:ℚ) ≤ (u:ℚ) / 100 / pr := by positivity
      · exact ⟨hp, by dsimp only; omega, by dsimp only; linarith, he⟩
      · exact ⟨hp, by dsimp only; omega, hb, by dsimp only; linarith⟩
  | stop => exact ⟨hp, hu, hb, he⟩

/-- C2 (counterexample): the claim fails for `availableMinor`.  The initial
store state has all balances non-negative, yet the single fiat withdrawal of
the full available balance (`12000` minor units) leaves
`availableMinor = -120 < 0`, because `requestWithdrawal` checks only
`amount ≤ availableMinor` and then deducts `amount + fee`. -/
theorem nonneg_after_runOps_cex :
    (0 ≤ initialState.wallet.availableMinor ∧ 0 ≤ initialState.wallet.pendingMinor ∧
     0 ≤ initialState.assets.usdtMinor ∧ 0 ≤ initialState.assets.btc ∧
     0 ≤ initialState.assets.eth) ∧
    (runOps 0 [Op.withdraw 12000] initialState).wallet.availableMinor = -120 := by
  constructor
  · norm_num [initialState]
  · show (requestWithdrawal 0 12000 initialState).2.wallet.availableMinor = -120
    norm_num [requestWithdrawal, initialState, jsRound]

/-- C2 (amended): starting from any state with non-negative balances, after
every finite sequence of state-machine operations `pendingMinor` and all
crypto balances (`usdtMinor`, `btc`, `eth`) remain non-negative;
`availableMinor`, however, is *not* preserved non-negative — a fiat
withdrawal request of the full available balance drives it negative by the
1% fee, since the fee is not included in the balance precondition. -/
theorem nonneg_balances_runOps (today : ℤ) (ops : List Op) (s : AppState)
    (h : NonNegBalances s) : NonNegBalances (runOps today ops s) := by
  induction ops generalizing s with
  | nil => exact h
  | cons op ops ih => exact ih (applyOp today op s) (nonneg_balances_applyOp today op s h)

/-- C2 (witness): the amended invariant applied to the initial store state
and a concrete sequence exercising invest, order emission, payout,
withdrawal, crypto withdrawal and both exchange directions. -/
theorem nonneg_balances_runOps_witness :
    NonNegBalances (runOps 0
      [Op.start 10000, Op.emitOrder 55, Op.payout, Op.withdraw 500,
       Op.cryptoWithdraw .BTC (1/100), Op.exch .CRYPTO_TO_USDT .ETH 2000 (1/10) 0,
       Op.exch .USDT_TO_CRYPTO .BTC 60000 0 1000, Op.stop] initialState) :=
  nonneg_balances_runOps 0 _ initialState
    (by refine ⟨?_, ?_, ?_, ?_⟩ <;> norm_num [initialState])

/-- A ledger with yesterday's gross earnings of 10000 minor units
(`today = 10`). -/
def scenYesterday : List LedgerEntry :=
  [ { type := .EARN, amountMinor := 10000, currency := "USD", day := 9 } ]

/-- `scenYesterday` plus one PAYOUT entry of `n` minor units dated today. -/
def scenWithPayout (n : ℤ) : List LedgerEntry :=
  { type := .PAYOUT, amountMinor := n, currency := "USD", day := 10 } :: scenYesterday

/-- `scenYesterday` plus two PAYOUT entries dated today whose plain signed
sum is zero but whose clamped sum is 8000. -/
def scenCancelled : List LedgerEntry :=
  { type := .PAYOUT, amountMinor := 8000, currency := "USD", day := 10 } ::
  { type := .PAYOUT, amountMinor := -8000, currency := "USD", day := 10 } :: scenYesterday

/-- C8 (counterexample): the claim defines `paidToday` as the *sum* of
today's PAYOUT entries, but the code sums `Math.max(0, amountMinor)`.  On a
ledger whose today-PAYOUT amounts are `8000` and `-8000` the claim's sum is
`0` with `net = 8000 > 0`, so by the claim the status must not be SENT — yet
the code returns SENT. -/
theorem payout_status_plain_sum_cex :
    (getYesterdayNumbers 10 scenCancelled).2.2 = 8000 ∧
    (scenCancelled.filter fun e => e.type == EntryType.PAYOUT && e.day == (10:ℤ)).foldl
      (fun sum e => sum + e.amountMinor) 0 = 0 ∧
    ¬((0:ℤ) ≥ 8000 ∧ (8000:ℤ) > 0) ∧
    (getYesterdayPayoutStatus 10 scenCancelled 8000).1 = .SENT := by
  refine ⟨?_, ?_, by norm_num, ?_⟩
  · norm_num [getYesterdayNumbers, scenCancelled, scenYesterday, List.filter, List.foldl, jsRound]
  · norm_num [scenCancelled, scenYesterday, List.filter, List.foldl]
  · norm_num [getYesterdayPayoutStatus, paidMinorToday, scenCancelled, scenYesterday,
      List.filter, List.foldl]

/-- C8 (amended): with gross = sum of EARN and COMMISSION entries dated
yesterday, `fee = round(gross × 20%)`, `net = max(0, gross − fee)` and
`paidToday` = sum of `max(0, amountMinor)` over today's PAYOUT entries (the
code clamps negative PAYOUT amounts to zero before summing), the inferred
status is SENT iff `paidToday ≥ net ∧ net > 0`, PARTIAL iff
`0 < paidToday < net`, and PENDING otherwise; the scenario gross = 10000
gives fee = 2000 and net = 8000, and payouts of 8000 / 4000 / none give
SENT / PARTIAL / PENDING. -/
theorem payout_status_characterization :
    (∀ (today net : ℤ) (L : List LedgerEntry),
      ((getYesterdayPayoutStatus today L net).1 = .SENT ↔
        net ≤ paidMinorToday today L ∧ 0 < net) ∧
      ((getYesterdayPayoutStatus today L net).1 = .PARTIAL ↔
        0 < paidMinorToday today L ∧ paidMinorToday today L < net) ∧
      ((getYesterdayPayoutStatus today L net).1 = .PENDING ↔
        ¬(net ≤ paidMinorToday today L ∧ 0 < net) ∧
        ¬(0 < paidMinorToday today L ∧ paidMinorToday today L < net)) ∧
      (getYesterdayPayoutStatus today L net).2 = paidMinorToday today L) ∧
    (∀ (today : ℤ) (L : List LedgerEntry),
      (getYesterdayNumbers today L).2.1
        = jsRound (((getYesterdayNumbers today L).1 : ℚ) * (2/10)) ∧
      (getYesterdayNumbers today L).2.2
        = max 0 ((getYesterdayNumbers today L).1 - (getYesterdayNumbers today L).2.1)) ∧
    (getYesterdayNumbers 10 scenYesterday).1 = 10000 ∧
    (getYesterdayNumbers 10 scenYesterday).2.1 = 2000 ∧
    (getYesterdayNumbers 10 scenYesterday).2.2 = 8000 ∧
    (getYesterdayPayoutStatus 10 (scenWithPayout 8000) 8000).1 = .SENT ∧
    (getYesterdayPayoutStatus 10 (scenWithPayout 4000) 8000).1 = .PARTIAL ∧
    (getYesterdayPayoutStatus 10 scenYesterday 8000).1 = .PENDING := by
  refine ⟨fun today net L => ?_, fun today L => ⟨rfl, rfl⟩, ?_, ?_, ?_, ?_, ?_, ?_⟩
  · unfold getYesterdayPayoutStatus
    dsimp only
    split_ifs with h1 h2
    · exact ⟨⟨fun _ => ⟨h1.1, h1.2⟩, fun _ => rfl⟩,
        ⟨fun h => absurd h (by decide), fun hh => absurd hh (by omega)⟩,
        ⟨fun h => absurd h (by decide), fun hh => absurd h1 (by omega)⟩, rfl⟩
    · exact ⟨⟨fun h => absurd h (by decide), fun hh => absurd hh h1⟩,
        ⟨fun _ => ⟨h2.1, h2.2⟩, fun _ => rfl⟩,
        ⟨fun h => absurd h (by decide), fun hh => absurd hh.2 (by omega)⟩, rfl⟩
    · exact ⟨⟨fun h => absurd h (by decide), fun hh => absurd hh h1⟩,
        ⟨fun h => absurd h (by decide), fun hh => absurd hh h2⟩,
        ⟨fun _ => ⟨h1, h2⟩, fun _ => rfl⟩, rfl⟩
  · norm_num [getYesterdayNumbers, scenYesterday, List.filter, List.foldl]
  · norm_num [getYesterdayNumbers, scenYesterday, List.filter, List.foldl, jsRound]
  · norm_num [getYesterdayNumbers, scenYesterday, List.filter, List.foldl, jsRound]
  · norm_num [getYesterdayPayoutStatus, paidMinorToday, scenWithPayout, scenYesterday,
      List.filter, List.foldl]
  · norm_num [getYesterdayPayoutStatus, paidMinorToday, scenWithPayout, scenYesterday,
      List.filter, List.foldl]
  · norm_num [getYesterdayPayoutStatus, paidMinorToday, scenYesterday, List.filter, List.foldl]

/-- C9: crypto balance checks use the `1e-12` tolerance and clamp at zero:
`requestCryptoWithdrawal` succeeds exactly when `amount + 1% fee` exceeds the
held BTC/ETH balance by at most `1e-12`, and sets the holding to
`max(0, balance − total)`, so a held balance never becomes negative; the
crypto→USDT direction of `exchange` applies the same tolerance and clamping
to the deducted crypto amount. -/
theorem crypto_eps_clamp (today : ℤ) (sym : CryptoSymbol) (pr amt : ℚ) (u : ℤ)
    (s : AppState) :
    (0 < amt →
      ((requestCryptoWithdrawal today sym amt s).1.ok = true ↔
        amt + amt * (1/100) ≤ heldCrypto s sym + cryptoEps)) ∧
    (0 < amt → amt + amt * (1/100) ≤ heldCrypto s sym + cryptoEps →
      heldCrypto (requestCryptoWithdrawal today sym amt s).2 sym
        = max 0 (heldCrypto s sym - (amt + amt * (1/100)))) ∧
    (0 ≤ heldCrypto s sym →
      0 ≤ heldCrypto (requestCryptoWithdrawal today sym amt s).2 sym) ∧
    (0 < pr → 0 < amt →
      ((exchange today .CRYPTO_TO_USDT sym pr amt u s).1.ok = true ↔
        amt ≤ heldCrypto s sym + cryptoEps)) ∧
    (0 < pr → 0 < amt → amt ≤ heldCrypto s sym + cryptoEps →
      heldCrypto (exchange today .CRYPTO_TO_USDT sym pr amt u s).2 sym
        = max 0 (heldCrypto s sym - amt)) ∧
    (0 ≤ heldCrypto s sym →
      0 ≤ heldCrypto (exchange today .CRYPTO_TO_USDT sym pr amt u s).2 sym) := by
  refine ⟨fun h0 => ?_, fun h0 hle => ?_, fun hnn => ?_,
          fun hpr h0 => ?_, fun hpr h0 hle => ?_, fun hnn => ?_⟩
  · cases sym <;> (unfold requestCryptoWithdrawal; dsimp only; split_ifs with ha hins)
    · exact absurd h0 (not_lt.mpr ha)
    · exact ⟨fun h => absurd h (by decide), fun hh => absurd hh (not_le.mpr hins)⟩
    · exact ⟨fun _ => not_lt.mp hins, fun _ => rfl⟩
    · exact absurd h0 (not_lt.mpr ha)
    · exact ⟨fun h => absurd h (by decide), fun hh => absurd hh (not_le.mpr hins)⟩
    · exact ⟨fun _ => not_lt.mp hins, fun _ => rfl⟩
  · cases sym <;> (unfold requestCryptoWithdrawal; dsimp only; split_ifs with ha hins)
    · exact absurd h0 (not_lt.mpr ha)
    · exact absurd hle (not_le.mpr hins)
    · rfl
    · exact absurd h0 (not_lt.mpr ha)
    · exact absurd hle (not_le.mpr hins)
    · rfl
  · cases sym <;> (unfold requestCryptoWithdrawal; dsimp only; split_ifs)
    · exact hnn
    · exact hnn
    · exact le_max_left 0 _
    · exact hnn
    · exact hnn
    · exact le_max_left 0 _
  · cases sym <;> (unfold exchange; dsimp only; split_ifs with hp ha hins)
    · exact absurd hpr (not_lt.mpr hp)
    · exact absurd h0 (not_lt.mpr ha)
    · exact ⟨fun h => absurd h (by decide), fun hh => absurd hh (not_le.mpr hins)⟩
    · exact ⟨fun _ => not_lt.mp hins, fun _ => rfl⟩
    · exact absurd hpr (not_lt.mpr hp)
    · exact absurd h0 (not_lt.mpr ha)
    · exact ⟨fun h => absurd h (by decide), fun hh => absurd hh (not_le.mpr hins)⟩
    · exact ⟨fun _ => not_lt.mp hins, fun _ => rfl⟩
  · cases sym <;> (unfold exchange; dsimp only; split_ifs with hp ha hins)
    · exact absurd hpr (not_lt.mpr hp)
    · exact absurd h0 (not_lt.mpr ha)
    · exact absurd hle (not_le.mpr hins)
    · rfl
    · exact absurd hpr (not_lt.mpr hp)
    · exact absurd h0 (not_lt.mpr ha)
    · exact absurd hle (not_le.mpr hins)
    · rfl
  · cases sym <;> (unfold exchange; dsimp only; split_ifs)
    · exact hnn
    · exact hnn
    · exact hnn
    · exact le_max_left 0 _
    · exact hnn
    · exact hnn
    · exact hnn
    · exact le_max_left 0 _

/-- C9 (witness): withdrawing a BTC amount whose total with the 1% fee
equals the held balance plus exactly `1e-12` still succeeds on the initial
state (the excess equals the tolerance). -/
theorem crypto_eps_clamp_witness :
    (requestCryptoWithdrawal 0 .BTC ((15423/1000000 + 1/1000000000000) * (100/101))
      initialState).1.ok = true :=
  ((crypto_eps_clamp 0 .BTC 1 ((15423/1000000 + 1/1000000000000) * (100/101)) 0
      initialState).1 (by norm_num)).mpr
    (by norm_num [heldCrypto, initialState, cryptoEps])

/-- C3 (failing input): the plan built for one minor unit of invested capital
on day `20240101` has `targetSumMinor = 0` but at least 50 planned orders,
and the very first emitted order carries 1 minor unit for *every* noise
draw, so `producedMinor = 1 > targetSumMinor = 0`: the per-order floor of 1
minor unit overrides the remaining-target ceiling
(`maxAllowed = Math.max(minCents, …)`), contradicting the engine's own
"never exceeds the daily target" guarantee. -/
theorem plan_overshoot_failing_input :
    (buildPlan 1 20240101).targetSumMinor = 0 ∧
    50 ≤ (buildPlan 1 20240101).ordersPlanned ∧
    ∀ r : ℚ, (buildPlan 1 20240101).targetSumMinor
      < ((makeOneOrder r (buildPlan 1 20240101)).1).producedMinor := by
  have hb := buildPlan_pos_eq 1 20240101 one_pos
  have hr0 : 0 ≤ seededRand01 (daySeedOf 1 20240101) := seededRand01_nonneg _
  have hr1 : seededRand01 (daySeedOf 1 20240101) < 1 := seededRand01_lt_one _
  have htier : (((1:ℤ):ℚ))/100 < 10000 := by norm_num
  have hm0 : (0:ℚ) ≤ min ((40:ℚ)/100)
      ((30:ℚ)/100 * (9/10 + seededRand01 (daySeedOf 1 20240101) * (2/10))) :=
    le_min (by norm_num) (by nlinarith)
  have hm1 : min ((40:ℚ)/100)
      ((30:ℚ)/100 * (9/10 + seededRand01 (daySeedOf 1 20240101) * (2/10))) ≤ 40/100 :=
    min_le_left _ _
  have htarget : (buildPlan 1 20240101).targetSumMinor = 0 := by
    rw [hb]
    dsimp only
    rw [if_pos htier, if_pos htier]
    have hfl : jsRound ((((1:ℤ):ℚ))/100
        * min ((40:ℚ)/100)
            ((30:ℚ)/100 * (9/10 + seededRand01 (daySeedOf 1 20240101) * (2/10)))
        / 30 * 100) = 0 := by
      unfold jsRound
      rw [Int.floor_eq_zero_iff]
      constructor
      · nlinarith
      · nlinarith
    rw [hfl]
    simp
  refine ⟨htarget, ?_, ?_⟩
  · rw [hb]
    exact Nat.le_add_right 50 _
  · intro r
    have hcap : (buildPlan 1 20240101).ordersDone < (buildPlan 1 20240101).ordersPlanned := by
      rw [hb]
      dsimp only
      omega
    have hmin := (makeOneOrder_min_one r _ hcap).1
    have hprod : (buildPlan 1 20240101).producedMinor = 0 := by rw [hb]
    omega

/-- C4: `buildPlan` is deterministic — identical `(investedAmount, day)`
inputs produce identical plans, in particular the same `targetSumMinor` and
`ordersPlanned`.  In this embedding `buildPlan` is a pure function of
`(investMinor, day)` alone, because the source derives every plan field from
`seededRand01` seeded on `(day, amount)` and never consults the non-seeded
random source (`Math.random` appears only in the per-order noise, which
`makeOneOrder` therefore takes as the explicit input `r`). -/
theorem buildPlan_deterministic (inv1 inv2 : ℤ) (day1 day2 : ℕ)
    (hinv : inv1 = inv2) (hday : day1 = day2) :
    buildPlan inv1 day1 = buildPlan inv2 day2 ∧
    (buildPlan inv1 day1).targetSumMinor = (buildPlan inv2 day2).targetSumMinor ∧
    (buildPlan inv1 day1).ordersPlanned = (buildPlan inv2 day2).ordersPlanned := by
  subst hinv
  subst hday
  exact ⟨rfl, rfl, rfl⟩

/-- C4 (witness): the determinism theorem applied at a concrete input. -/
theorem buildPlan_deterministic_witness :
    buildPlan 10000 20240101 = buildPlan 10000 20240101 :=
  (buildPlan_deterministic 10000 10000 20240101 20240101 rfl rfl).1

/-- C6: for a positive invested amount, the daily target is
`round(invMain × effectiveMonthlyRate / 30 × 100)` where the monthly rate is
`min(cap, base × jitter)` with base/cap chosen by capital tier
(`invMain < 10000` ⇒ 0.30/0.40, else 0.60/0.80), the jitter
`0.9 + seededRand01(daySeed) × 0.2` lies in `[0.9, 1.1]`, the day seed is
the integer day key XOR the scaled (minor-unit) amount, and the target is
non-negative. -/
theorem buildPlan_target_formula (inv : ℤ) (day : ℕ) (h : 0 < inv) :
    0 ≤ (buildPlan inv day).targetSumMinor ∧
    (9:ℚ)/10 ≤ 9/10 + seededRand01 (daySeedOf inv day) * (2/10) ∧
    (9:ℚ)/10 + seededRand01 (daySeedOf inv day) * (2/10) ≤ 11/10 ∧
    daySeedOf inv day = Nat.xor (u32 day) (u32 inv.toNat) ∧
    (buildPlan inv day).targetSumMinor
      = jsRound ((((inv:ℚ))/100)
          * min (if (((inv:ℚ))/100) < 10000 then (40:ℚ)/100 else 80/100)
                ((if (((inv:ℚ))/100) < 10000 then (30:ℚ)/100 else 60/100)
                  * (9/10 + seededRand01 (daySeedOf inv day) * (2/10)))
          / 30 * 100) := by
  have hr0 : 0 ≤ seededRand01 (daySeedOf inv day) := seededRand01_nonneg _
  have hr1 : seededRand01 (daySeedOf inv day) < 1 := seededRand01_lt_one _
  have hb := buildPlan_pos_eq inv day h
  have hc : (0:ℚ) ≤ (if (((inv:ℚ))/100) < 10000 then (40:ℚ)/100 else 80/100) := by
    split_ifs <;> norm_num
  have hbase : (0:ℚ) ≤ (if (((inv:ℚ))/100) < 10000 then (30:ℚ)/100 else 60/100) := by
    split_ifs <;> norm_num
  have hmin : (0:ℚ) ≤ min (if (((inv:ℚ))/100) < 10000 then (40:ℚ)/100 else 80/100)
      ((if (((inv:ℚ))/100) < 10000 then (30:ℚ)/100 else 60/100)
        * (9/10 + seededRand01 (daySeedOf inv day) * (2/10))) :=
    le_min hc (by nlinarith)
  have hinv0 : (0:ℚ) ≤ ((inv:ℚ))/100 := by positivity
  have hF : (0:ℚ) ≤ (((inv:ℚ))/100)
      * min (if (((inv:ℚ))/100) < 10000 then (40:ℚ)/100 else 80/100)
            ((if (((inv:ℚ))/100) < 10000 then (30:ℚ)/100 else 60/100)
              * (9/10 + seededRand01 (daySeedOf inv day) * (2/10)))
      / 30 * 100 := by
    apply mul_nonneg _ (by norm_num)
    apply div_nonneg _ (by norm_num)
    exact mul_nonneg hinv0 hmin
  refine ⟨?_, by nlinarith, by nlinarith, ?_, ?_⟩
  · rw [hb]
    exact le_max_left 0 _
  · unfold daySeedOf
    have hmax : max 0 inv = inv := max_eq_right h.le
    rw [hmax]
    have : (⌊((inv:ℚ))/100 * 100⌋) = inv := by
      rw [div_mul_cancel₀ _ (by norm_num : (100:ℚ) ≠ 0)]
      exact Int.floor_intCast inv
    rw [this]
  · rw [hb]
    dsimp only
    exact max_eq_right (jsRound_nonneg hF)

/-- C6 (witness): the target formula applied at the concrete input
`investMinor = 500000` ($5,000), day key `20240101`. -/
theorem buildPlan_target_formula_witness :
    0 ≤ (buildPlan 500000 20240101).targetSumMinor :=
  (buildPlan_target_formula 500000 20240101 (by norm_num)).1

/-- C7: for a non-positive invested amount `buildPlan` returns the empty
plan (`ordersPlanned = 0`, `targetSumMinor = 0`) and no order is ever
emitted from it; for a positive amount `ordersPlanned` is
`50 + ⌊seededRand01(daySeed + 77) × 51⌋`, which lies in `[50, 100]` and uses
a seed offset distinct from the rate-jitter seed. -/
theorem buildPlan_orders_range (inv : ℤ) (day : ℕ) :
    (inv ≤ 0 →
      buildPlan inv day
        = { day := day, ordersPlanned := 0, ordersDone := 0,
            targetSumMinor := 0, producedMinor := 0 } ∧
      ∀ r, makeOneOrder r (buildPlan inv day) = (buildPlan inv day, none)) ∧
    (0 < inv →
      (buildPlan inv day).ordersPlanned
        = 50 + (⌊seededRand01 (daySeedOf inv day + 77) * 51⌋).toNat ∧
      50 ≤ (buildPlan inv day).ordersPlanned ∧
      (buildPlan inv day).ordersPlanned ≤ 100 ∧
      daySeedOf inv day + 77 ≠ daySeedOf inv day) := by
  constructor
  · intro h
    have hmax : max 0 inv = 0 := max_eq_left h
    have hzero : buildPlan inv day
        = { day := day, ordersPlanned := 0, ordersDone := 0,
            targetSumMinor := 0, producedMinor := 0 } := by
      unfold buildPlan
      rw [hmax, if_pos (by norm_num)]
    refine ⟨hzero, fun r => ?_⟩
    rw [hzero]
    simp [makeOneOrder]
  · intro h
    have hb := buildPlan_pos_eq inv day h
    have hr0 : 0 ≤ seededRand01 (daySeedOf inv day + 77) := seededRand01_nonneg _
    have hr1 : seededRand01 (daySeedOf inv day + 77) < 1 := seededRand01_lt_one _
    have hk : (⌊seededRand01 (daySeedOf inv day + 77) * 51⌋).toNat ≤ 50 := by
      have h51 : (⌊seededRand01 (daySeedOf inv day + 77) * 51⌋) < 51 :=
        Int.floor_lt.mpr (by push_cast; nlinarith)
      omega
    refine ⟨by rw [hb], by rw [hb]; exact Nat.le_add_right 50 _, ?_, by omega⟩
    rw [hb]
    dsimp only
    omega

/-- C7 (witness): the positive branch applied at the concrete input
`investMinor = 10000`, day key `20240101`. -/
theorem buildPlan_orders_range_witness :
    50 ≤ (buildPlan 10000 20240101).ordersPlanned :=
  ((buildPlan_orders_range 10000 20240101).2 (by norm_num)).2.1

end Chuangzuo
